import Mathlib

/-!
Verification of `scripts/generate_golden.py`, the golden-fixture generator of
the go-sat repository.  The script loads an external pretrained tokenizer,
runs it over a fixed list of eleven sample strings, and serializes the
resulting token ids, character offsets and token strings to a JSON file.

The external tokenizer (the `transformers` library) is not part of the
repository; it is modelled as an opaque record of functions (`Tokenizer`
for the pure view, `TokenizerE` / `EnvE` for the fallible, trace-producing
view).  Everything the script itself does — the fixed input list, the
per-input loop, the record construction, the JSON serialization with
`indent=2, ensure_ascii=False`, the output path, the stdout line — is
embedded faithfully from the source.

Note on the input list: the source file's bytes for the last three test
strings are double-encoded UTF-8 (mojibake); decoded as UTF-8 — which is
how Python reads the source — they are the literal character sequences
embedded below, not "café", "你好世界", "🎉".
-/

namespace GoldenGen

/-- Result of `tok(text, return_offsets_mapping=True, add_special_tokens=False)`:
the two parallel sequences the script reads out of the returned encoding. -/
structure EncodeResult where
  input_ids : List Int
  offset_mapping : List (Nat × Nat)
  deriving Repr, DecidableEq

/-- The external pretrained tokenizer, pure view: an encode operation taking
the text and the two keyword flags (`return_offsets_mapping`,
`add_special_tokens`, in that order), and an id-to-token-string resolution
operation. -/
structure Tokenizer where
  encode : String → Bool → Bool → EncodeResult
  convert_ids_to_tokens : List Int → List String

/-- One element of the output array (`results.append({...})` in the script). -/
structure GoldenRecord where
  input : String
  token_ids : List Int
  offsets : List (Nat × Nat)
  tokens : List String
  deriving Repr, DecidableEq

/-- The fixed internal input list `test_cases` of the script (11 strings,
transcribed byte-faithfully from the source, mojibake included). -/
def test_cases : List String :=
  [ "Hello",
    "Hello world",
    "Hello world.",
    "I want to",
    "Thank you very much.",
    "This is a test sentence.",
    "The quick brown fox jumps over the lazy dog.",
    "",
    "cafÃ©",
    "ä½ å¥½ä¸–ç•Œ",
    "ðŸŽ‰" ]

/-- The body of the loop: one iteration of
`enc = tok(text, return_offsets_mapping=True, add_special_tokens=False)`
followed by `results.append({...})`. -/
def makeRecord (tok : Tokenizer) (text : String) : GoldenRecord :=
  let enc := tok.encode text true false
  { input := text
    token_ids := enc.input_ids
    offsets := enc.offset_mapping
    tokens := tok.convert_ids_to_tokens enc.input_ids }

/-- The `results` list built by the `for text in test_cases` loop. -/
def results (tok : Tokenizer) : List GoldenRecord :=
  test_cases.map (makeRecord tok)

/-- A concrete tokenizer used to instantiate the theorems on closed inputs:
it emits one token per character, with offsets `(i, i+1)` and the decimal
form of each id as its token string. -/
def demoTok : Tokenizer where
  encode text _ _ :=
    { input_ids := (List.range text.length).map Int.ofNat
      offset_mapping := (List.range text.length).map (fun i => (i, i + 1)) }
  convert_ids_to_tokens ids := ids.map toString

/-- C1: every record produced by the per-input loop has its three sequence
fields positionally aligned in length — `len(token_ids) == len(offsets) ==
len(tokens)` — assuming the external `encode` returns `input_ids` and
`offset_mapping` of equal length and id-to-token resolution returns one
string per id. -/
theorem record_lengths_aligned (tok : Tokenizer)
    (henc : ∀ text b1 b2,
      ((tok.encode text b1 b2).input_ids).length =
        ((tok.encode text b1 b2).offset_mapping).length)
    (hconv : ∀ ids, (tok.convert_ids_to_tokens ids).length = ids.length) :
    ∀ r ∈ results tok,
      r.token_ids.length = r.offsets.length ∧ r.offsets.length = r.tokens.length := by
  intro r hr
  simp only [results, List.mem_map] at hr
  obtain ⟨text, -, rfl⟩ := hr
  simp only [makeRecord]
  refine ⟨henc text true false, ?_⟩
  rw [hconv]
  exact (henc text true false).symm

/-- Witness for C1 at the concrete tokenizer and the first input. -/
theorem record_lengths_aligned_witness :
    (makeRecord demoTok "Hello").token_ids.length =
        (makeRecord demoTok "Hello").offsets.length ∧
      (makeRecord demoTok "Hello").offsets.length =
        (makeRecord demoTok "Hello").tokens.length :=
  record_lengths_aligned demoTok
    (fun _ _ _ => by simp [demoTok])
    (fun _ => by simp [demoTok])
    (makeRecord demoTok "Hello")
    (by simp [results, test_cases])

/-! JSON serialization: a faithful model of CPython's
`json.dump(obj, f, indent=2, ensure_ascii=False)` restricted to the value
shapes this script produces (ints, strings, lists, string-keyed dicts).
With an `indent` argument Python uses `", "`-free separators: items are
separated by `","` + newline + indentation, keys by `": "`. -/

/-- Lowercase hexadecimal digit, as used by Python's `'\u{0:04x}'.format`. -/
def hexDigit (n : Nat) : Char :=
  if n < 10 then Char.ofNat (48 + n) else Char.ofNat (87 + n)

/-- Escape of a single character in a JSON string literal with
`ensure_ascii=False`: only the backslash, the double quote, and the control
characters below U+0020 are escaped; everything else (including all
non-ASCII characters) is emitted literally. -/
def escapeChar (c : Char) : String :=
  if c = '\\' then "\\\\"
  else if c = '"' then "\\\""
  else if c = Char.ofNat 8 then "\\b"
  else if c = Char.ofNat 12 then "\\f"
  else if c = '\n' then "\\n"
  else if c = Char.ofNat 13 then "\\r"
  else if c = '\t' then "\\t"
  else if c.val < 32 then
    "\\u00" ++ String.mk [hexDigit (c.toNat / 16), hexDigit (c.toNat % 16)]
  else String.mk [c]

/-- JSON string literal with `ensure_ascii=False`. -/
def dumpStr (s : String) : String :=
  "\"" ++ String.join (s.toList.map escapeChar) ++ "\""

/-- `indent * lvl` spaces of indentation. -/
def indentStr (ind lvl : Nat) : String :=
  String.mk (List.replicate (ind * lvl) ' ')

/-- JSON values of the shapes this script serializes. -/
inductive JValue where
  | jnum : Int → JValue
  | jstr : String → JValue
  | jarr : List JValue → JValue
  | jobj : List (String × JValue) → JValue
  deriving Repr

mutual

/-- Python `json.dump` of a value at nesting level `lvl`, indent width `ind`. -/
def dumpVal (ind lvl : Nat) : JValue → String
  | .jnum n => toString n
  | .jstr s => dumpStr s
  | .jarr [] => "[]"
  | .jarr (x :: xs) =>
      "[\n" ++ dumpItems ind (lvl + 1) (x :: xs) ++ "\n" ++ indentStr ind lvl ++ "]"
  | .jobj [] => "\x7b\x7d"
  | .jobj (f :: fs) =>
      "\x7b\n" ++ dumpFields ind (lvl + 1) (f :: fs) ++ "\n" ++ indentStr ind lvl ++ "\x7d"

/-- Array items, each on its own indented line, separated by `",\n"`. -/
def dumpItems (ind lvl : Nat) : List JValue → String
  | [] => ""
  | [x] => indentStr ind lvl ++ dumpVal ind lvl x
  | x :: y :: xs =>
      indentStr ind lvl ++ dumpVal ind lvl x ++ ",\n" ++ dumpItems ind lvl (y :: xs)

/-- Object fields, each on its own indented line, key and value joined by
`": "`, separated by `",\n"`. -/
def dumpFields (ind lvl : Nat) : List (String × JValue) → String
  | [] => ""
  | [(k, v)] => indentStr ind lvl ++ dumpStr k ++ ": " ++ dumpVal ind lvl v
  | (k, v) :: g :: fs =>
      indentStr ind lvl ++ dumpStr k ++ ": " ++ dumpVal ind lvl v ++ ",\n" ++
        dumpFields ind lvl (g :: fs)

end

/-- `json.dump(v, f, indent=ind, ensure_ascii=False)`: the exact text written. -/
def json_dump (v : JValue) (ind : Nat) : String :=
  dumpVal ind 0 v

/-- The JSON value of one golden record: a dict with the four keys in the
script's insertion order. -/
def recordJson (r : GoldenRecord) : JValue :=
  .jobj
    [ ("input", .jstr r.input),
      ("token_ids", .jarr (r.token_ids.map .jnum)),
      ("offsets", .jarr (r.offsets.map (fun p => .jarr [.jnum (p.1 : Int), .jnum (p.2 : Int)]))),
      ("tokens", .jarr (r.tokens.map .jstr)) ]

/-- The JSON value of the whole `results` list. -/
def resultsJson (tok : Tokenizer) : JValue :=
  .jarr ((results tok).map recordJson)

/-- The fixed relative output path of the script. -/
def out_path : String := "testdata/tokenizer_golden.json"

/-- The model identifier passed to `AutoTokenizer.from_pretrained`. -/
def model_id : String := "xlm-roberta-base"

/-- A file write: destination path and the full text written. -/
structure FileWrite where
  path : String
  content : String
  deriving Repr, DecidableEq

/-- Observable output of one successful run of the script: the file write
performed by `json.dump` and the line printed to stdout. -/
structure RunOutput where
  file : FileWrite
  stdout_line : String
  deriving Repr, DecidableEq

/-- The whole script (`main`), as a function of the external tokenizer: build
`results`, dump it as JSON with `indent=2, ensure_ascii=False` to the fixed
path, print the count line. -/
def main (tok : Tokenizer) : RunOutput :=
  { file := { path := out_path, content := json_dump (resultsJson tok) 2 }
    stdout_line := "Generated " ++ toString (results tok).length ++ " test cases" }

/-- C2: one run produces exactly 11 records, one per element of the fixed
input list and in its order, with the i-th record's `input` field equal to
the i-th input string; the file content is the JSON dump of that array. -/
theorem run_produces_eleven_ordered_records (tok : Tokenizer) :
    (results tok).length = 11 ∧
      (∀ i, ((results tok).get? i).map GoldenRecord.input = test_cases.get? i) ∧
      (main tok).file.content = json_dump (.jarr ((results tok).map recordJson)) 2 := by
  refine ⟨by simp [results, test_cases], fun i => ?_, rfl⟩
  rcases h : test_cases.get? i with _ | t <;>
    simp [results, List.get?_eq_getElem?, List.getElem?_map, makeRecord,
      List.get?_eq_getElem? test_cases i ▸ h]

/-- C3: the record produced for the empty-string input (position 7 of the
input list) has all three sequences empty, given that the encode call — made
with `add_special_tokens=False` — returns empty `input_ids` and
`offset_mapping` on `""` and that id-to-token resolution of no ids yields no
tokens. -/
theorem empty_input_record_empty (tok : Tokenizer)
    (hids : (tok.encode "" true false).input_ids = [])
    (hoffs : (tok.encode "" true false).offset_mapping = [])
    (hconv : tok.convert_ids_to_tokens [] = []) :
    (results tok).get? 7 =
      some { input := "", token_ids := [], offsets := [], tokens := [] } := by
  simp [results, test_cases, List.get?_eq_getElem?, List.getElem?_map, makeRecord,
    hids, hoffs, hconv]

/-- Witness for C3 at the concrete tokenizer. -/
theorem empty_input_record_empty_witness :
    (results demoTok).get? 7 =
      some { input := "", token_ids := [], offsets := [], tokens := [] } :=
  empty_input_record_empty demoTok (by simp [demoTok]) (by simp [demoTok]) (by simp [demoTok])

/-- C5: the output is written to the fixed relative path
`testdata/tokenizer_golden.json`, pretty-printed with an indentation of 2
spaces, and — `ensure_ascii=False` — every character at or above U+0020
other than the quote and the backslash (in particular every non-ASCII
character) is emitted literally, not as an escape sequence.  The byte
encoding of the written text is modelled at the character level: the content
is the exact character sequence `json.dump` produces. -/
theorem output_path_and_format (tok : Tokenizer) :
    (main tok).file.path = "testdata/tokenizer_golden.json" ∧
      (main tok).file.content = json_dump (resultsJson tok) 2 ∧
      ∀ c : Char, 32 ≤ c.val → c ≠ '"' → c ≠ '\\' → escapeChar c = String.mk [c] := by
  refine ⟨rfl, rfl, fun c h32 hq hb => ?_⟩
  have h8 : c ≠ Char.ofNat 8 := by
    intro h; rw [h] at h32; exact absurd h32 (by decide)
  have h12 : c ≠ Char.ofNat 12 := by
    intro h; rw [h] at h32; exact absurd h32 (by decide)
  have hn : c ≠ '\n' := by
    intro h; rw [h] at h32; exact absurd h32 (by decide)
  have h13 : c ≠ Char.ofNat 13 := by
    intro h; rw [h] at h32; exact absurd h32 (by decide)
  have ht : c ≠ '\t' := by
    intro h; rw [h] at h32; exact absurd h32 (by decide)
  have hlt : ¬ c.val < 32 := Nat.not_lt.mpr h32
  simp [escapeChar, hb, hq, h8, h12, hn, h13, ht, hlt]

/-- Witness for C5 at the concrete tokenizer and the non-ASCII character é. -/
theorem output_path_and_format_witness :
    (main demoTok).file.path = "testdata/tokenizer_golden.json" ∧
      escapeChar (Char.ofNat 233) = String.mk [Char.ofNat 233] :=
  ⟨(output_path_and_format demoTok).1,
    (output_path_and_format demoTok).2.2 (Char.ofNat 233) (by decide) (by decide) (by decide)⟩

/-- C6: the generator is deterministic — its output is a function of the
external tokenizer's behavior alone, so two tokenizers that agree as
functions (same library version) produce identical output files and stdout. -/
theorem run_deterministic (tok1 tok2 : Tokenizer)
    (henc : tok1.encode = tok2.encode)
    (hconv : tok1.convert_ids_to_tokens = tok2.convert_ids_to_tokens) :
    main tok1 = main tok2 := by
  cases tok1
  cases tok2
  simp only [Tokenizer.mk.injEq] at henc hconv ⊢
  subst henc
  subst hconv
  rfl

/-- Witness for C6: two (syntactically equal) runs coincide. -/
theorem run_deterministic_witness : main demoTok = main demoTok :=
  run_deterministic demoTok demoTok rfl rfl

/-- The offset contract of the external tokenizer for a given text: pairs are
componentwise non-decreasing along the sequence, and each pair `(s, e)`
satisfies `s ≤ e ≤ len(text)` (Python's `len`, i.e. the number of code
points, matching `String.length`). -/
def OffsetsOK (text : String) (offs : List (Nat × Nat)) : Prop :=
  List.Chain' (fun p q : Nat × Nat => p.1 ≤ q.1 ∧ p.2 ≤ q.2) offs ∧
    ∀ p ∈ offs, p.1 ≤ p.2 ∧ p.2 ≤ text.length

instance (text : String) (offs : List (Nat × Nat)) : Decidable (OffsetsOK text offs) := by
  unfold OffsetsOK; infer_instance

/-- C8: every produced record's offsets are non-decreasing with each pair
within `start ≤ end ≤ len(input)`, under the external tokenizer's offset
contract — the generator records the library's offsets verbatim. -/
theorem record_offsets_contract (tok : Tokenizer)
    (hoff : ∀ text b1 b2, OffsetsOK text ((tok.encode text b1 b2).offset_mapping)) :
    ∀ r ∈ results tok, OffsetsOK r.input r.offsets := by
  intro r hr
  simp only [results, List.mem_map] at hr
  obtain ⟨text, -, rfl⟩ := hr
  exact hoff text true false

/-- The concrete tokenizer meets the offset contract. -/
theorem demoTok_offsets_ok (text : String) (b1 b2 : Bool) :
    OffsetsOK text ((demoTok.encode text b1 b2).offset_mapping) := by
  constructor
  · simp only [demoTok]
    rw [List.chain'_map]
    exact ((List.pairwise_lt_range _).imp
      fun hij => ⟨Nat.le_of_lt hij, Nat.succ_le_succ (Nat.le_of_lt hij)⟩).chain'
  · intro p hp
    simp only [demoTok, List.mem_map, List.mem_range] at hp
    obtain ⟨i, hi, rfl⟩ := hp
    exact ⟨Nat.le_succ i, hi⟩

/-- Witness for C8 at the concrete tokenizer and the first input. -/
theorem record_offsets_contract_witness :
    OffsetsOK (makeRecord demoTok "Hello").input (makeRecord demoTok "Hello").offsets :=
  record_offsets_contract demoTok demoTok_offsets_ok (makeRecord demoTok "Hello")
    (by simp [results, test_cases])

/-- C9: in every record, `tokens` is exactly the id-to-token resolution of
that same record's `token_ids` (the ids of the same encode call, not a
re-encoding). -/
theorem tokens_consistent_with_ids (tok : Tokenizer) :
    ∀ r ∈ results tok, r.tokens = tok.convert_ids_to_tokens r.token_ids := by
  intro r hr
  simp only [results, List.mem_map] at hr
  obtain ⟨text, -, rfl⟩ := hr
  rfl

/-- Witness for C9 at the concrete tokenizer and the first input. -/
theorem tokens_consistent_with_ids_witness :
    (makeRecord demoTok "Hello").tokens =
      demoTok.convert_ids_to_tokens (makeRecord demoTok "Hello").token_ids :=
  tokens_consistent_with_ids demoTok (makeRecord demoTok "Hello")
    (by simp [results, test_cases])

/-! Effectful view of the run.  Loading the tokenizer, each tokenizer call,
and opening the destination file can raise; the script installs no handler,
so the first error aborts the run.  The run also yields a trace of the
observable events in program order, used to settle the call-discipline and
file-gating claims. -/

/-- Observable events of one run, in program order. -/
inductive Event where
  | loadTok : String → Event
  | encodeCall : String → Bool → Bool → Event
  | convertCall : List Int → Event
  | openFile : String → Event
  | writeFile : String → String → Event
  | printLine : String → Event
  deriving Repr, DecidableEq

/-- Fallible view of the external tokenizer: each operation may raise. -/
structure TokenizerE (E : Type) where
  encode : String → Bool → Bool → Except E EncodeResult
  convert_ids_to_tokens : List Int → Except E (List String)

/-- The effectful environment the script runs in: resolving the pretrained
tokenizer (`AutoTokenizer.from_pretrained`) and opening the destination file
for writing (`open(..., "w")`) may both fail. -/
structure EnvE (E : Type) where
  from_pretrained : String → Except E (TokenizerE E)
  openFile : String → Except E Unit

/-- The `for text in test_cases` loop under the fallible tokenizer: builds
the records in order, stopping at the first raised error; also returns the
trace of tokenizer calls actually made. -/
def processAll {E : Type} (tok : TokenizerE E) :
    List String → Except E (List GoldenRecord) × List Event
  | [] => (.ok [], [])
  | text :: rest =>
    match tok.encode text true false with
    | .error e => (.error e, [.encodeCall text true false])
    | .ok enc =>
      match tok.convert_ids_to_tokens enc.input_ids with
      | .error e => (.error e, [.encodeCall text true false, .convertCall enc.input_ids])
      | .ok toks =>
        let p := processAll tok rest
        (p.1.map (fun rs =>
          { input := text, token_ids := enc.input_ids,
            offsets := enc.offset_mapping, tokens := toks } :: rs),
         .encodeCall text true false :: .convertCall enc.input_ids :: p.2)

/-- The whole script under the fallible environment: load the tokenizer, run
the loop, then open the file, dump the JSON and print the count.  Any raised
error propagates (the result is that error) and ends the trace there. -/
def runE {E : Type} (env : EnvE E) : Except E RunOutput × List Event :=
  match env.from_pretrained model_id with
  | .error e => (.error e, [.loadTok model_id])
  | .ok tok =>
    let p := processAll tok test_cases
    match p.1 with
    | .error e => (.error e, .loadTok model_id :: p.2)
    | .ok rs =>
      match env.openFile out_path with
      | .error e => (.error e, .loadTok model_id :: p.2 ++ [.openFile out_path])
      | .ok _ =>
        let content := json_dump (.jarr (rs.map recordJson)) 2
        let line := "Generated " ++ toString rs.length ++ " test cases"
        (.ok { file := { path := out_path, content := content }, stdout_line := line },
         .loadTok model_id ::
           p.2 ++ [.openFile out_path, .writeFile out_path content, .printLine line])

/-- Recognizer for encode-call events. -/
def isEncodeCall : Event → Bool
  | .encodeCall .. => true
  | _ => false

/-- The loop's trace consists only of tokenizer calls (no file events, no
load event). -/
theorem processAll_events {E : Type} (tok : TokenizerE E) (ts : List String) :
    ∀ ev ∈ (processAll tok ts).2,
      (∃ t b1 b2, ev = Event.encodeCall t b1 b2) ∨ ∃ ids, ev = Event.convertCall ids := by
  induction ts with
  | nil => simp [processAll]
  | cons t rest ih =>
    intro ev hev
    rcases henc : tok.encode t true false with e | enc
    · simp only [processAll, henc] at hev
      simp only [List.mem_singleton] at hev
      exact Or.inl ⟨t, true, false, hev⟩
    · rcases hconv : tok.convert_ids_to_tokens enc.input_ids with e | toks
      · simp only [processAll, henc, hconv, List.mem_cons, List.mem_singleton,
          List.not_mem_nil, or_false] at hev
        rcases hev with rfl | rfl
        · exact Or.inl ⟨t, true, false, rfl⟩
        · exact Or.inr ⟨enc.input_ids, rfl⟩
      · simp only [processAll, henc, hconv, List.mem_cons] at hev
        rcases hev with rfl | rfl | hev
        · exact Or.inl ⟨t, true, false, rfl⟩
        · exact Or.inr ⟨enc.input_ids, rfl⟩
        · exact ih ev hev

/-- If the loop completes, every input's encode call succeeded. -/
theorem processAll_ok_encode {E : Type} (tok : TokenizerE E) (ts : List String)
    (rs : List GoldenRecord) (h : (processAll tok ts).1 = .ok rs) :
    ∀ t ∈ ts, ∃ enc, tok.encode t true false = .ok enc := by
  induction ts generalizing rs with
  | nil => simp
  | cons t rest ih =>
    intro t' ht'
    rcases henc : tok.encode t true false with e | enc
    · rw [processAll] at h; simp [henc] at h
    · rcases hconv : tok.convert_ids_to_tokens enc.input_ids with e | toks
      · rw [processAll] at h; simp [henc, hconv] at h
      · rcases List.mem_cons.mp ht' with rfl | ht'
        · exact ⟨enc, henc⟩
        · rw [processAll] at h
          simp only [henc, hconv] at h
          rcases hrest : (processAll tok rest).1 with e | rs'
          · rw [hrest] at h; simp [Except.map] at h
          · exact ih rs' hrest t' ht'

/-- If the loop completes, every input's encode call is in the loop trace. -/
theorem processAll_ok_encode_mem {E : Type} (tok : TokenizerE E) (ts : List String)
    (rs : List GoldenRecord) (h : (processAll tok ts).1 = .ok rs) :
    ∀ t ∈ ts, Event.encodeCall t true false ∈ (processAll tok ts).2 := by
  induction ts generalizing rs with
  | nil => simp
  | cons t rest ih =>
    intro t' ht'
    rcases henc : tok.encode t true false with e | enc
    · rw [processAll] at h; simp [henc] at h
    · rcases hconv : tok.convert_ids_to_tokens enc.input_ids with e | toks
      · rw [processAll] at h; simp [henc, hconv] at h
      · rw [processAll] at h ⊢
        simp only [henc, hconv] at h ⊢
        rcases List.mem_cons.mp ht' with rfl | ht'
        · exact List.mem_cons_self _ _
        · rcases hrest : (processAll tok rest).1 with e | rs'
          · rw [hrest] at h; simp [Except.map] at h
          · exact List.mem_cons_of_mem _ (List.mem_cons_of_mem _ (ih rs' hrest t' ht'))

/-- The loop under an infallible tokenizer given by pure functions produces
exactly the pure records, and its trace is the per-input call pattern: one
encode call (offsets requested, special tokens disabled) followed by one
id-to-token call on the ids that encode returned. -/
theorem processAll_pure {E : Type} (tokE : TokenizerE E) (tok : Tokenizer)
    (henc : ∀ t b1 b2, tokE.encode t b1 b2 = .ok (tok.encode t b1 b2))
    (hconv : ∀ ids, tokE.convert_ids_to_tokens ids = .ok (tok.convert_ids_to_tokens ids))
    (ts : List String) :
    processAll tokE ts =
      (.ok (ts.map (makeRecord tok)),
       ts.flatMap fun t =>
         [Event.encodeCall t true false,
          Event.convertCall ((tok.encode t true false).input_ids)]) := by
  induction ts with
  | nil => simp [processAll]
  | cons t rest ih =>
    rw [processAll]
    simp only [henc, hconv, ih]
    simp only [List.map_cons, List.flatMap_cons, Except.map, Prod.mk.injEq]
    exact ⟨rfl, rfl⟩

/-- Filtering the loop trace down to encode events leaves exactly one event
per input, in input order. -/
theorem filter_encode_calls (f : String → List Int) (ts : List String) :
    ((ts.flatMap fun t =>
        [Event.encodeCall t true false, Event.convertCall (f t)]).filter isEncodeCall) =
      ts.map fun t => Event.encodeCall t true false := by
  induction ts with
  | nil => rfl
  | cons t rest ih =>
    simp only [List.flatMap_cons, List.filter_append, ih, List.map_cons]
    simp [isEncodeCall]

/-- C4: for every input string the generator makes exactly one encode call,
with `return_offsets_mapping=True` and `add_special_tokens=False`, then one
separate id-to-token call on exactly the returned ids; the records hold
exactly the returned values (`results tok` is built verbatim from them). -/
theorem one_encode_call_per_input {E : Type} (tokE : TokenizerE E) (tok : Tokenizer)
    (henc : ∀ t b1 b2, tokE.encode t b1 b2 = .ok (tok.encode t b1 b2))
    (hconv : ∀ ids, tokE.convert_ids_to_tokens ids = .ok (tok.convert_ids_to_tokens ids)) :
    processAll tokE test_cases =
      (.ok (results tok),
       test_cases.flatMap fun t =>
         [Event.encodeCall t true false,
          Event.convertCall ((tok.encode t true false).input_ids)]) ∧
      ∀ t ∈ test_cases,
        ((processAll tokE test_cases).2.filter isEncodeCall).count
          (Event.encodeCall t true false) = 1 := by
  have h := processAll_pure tokE tok henc hconv test_cases
  refine ⟨h, fun t ht => ?_⟩
  rw [h]
  simp only
  rw [filter_encode_calls (fun t' => (tok.encode t' true false).input_ids) test_cases]
  revert ht
  revert t
  decide

/-- Infallible lift of the concrete tokenizer. -/
def demoTokE : TokenizerE Unit where
  encode t b1 b2 := .ok (demoTok.encode t b1 b2)
  convert_ids_to_tokens ids := .ok (demoTok.convert_ids_to_tokens ids)

/-- Witness for C4 at the concrete tokenizer and the first input. -/
theorem one_encode_call_per_input_witness :
    processAll demoTokE test_cases =
      (.ok (results demoTok),
       test_cases.flatMap fun t =>
         [Event.encodeCall t true false,
          Event.convertCall ((demoTok.encode t true false).input_ids)]) ∧
      ((processAll demoTokE test_cases).2.filter isEncodeCall).count
        (Event.encodeCall "Hello" true false) = 1 :=
  ⟨(one_encode_call_per_input demoTokE demoTok (fun _ _ _ => rfl) (fun _ => rfl)).1,
    (one_encode_call_per_input demoTokE demoTok (fun _ _ _ => rfl) (fun _ => rfl)).2
      "Hello" (by simp [test_cases])⟩

/-- The loop trace contains no load event. -/
theorem load_not_mem_processAll {E : Type} (tok : TokenizerE E) (ts : List String) :
    Event.loadTok model_id ∉ (processAll tok ts).2 := fun hmem => by
  rcases processAll_events tok ts _ hmem with ⟨t, b1, b2, h⟩ | ⟨ids, h⟩ <;> simp at h

/-- The loop trace contains no file-open event. -/
theorem openFile_not_mem_processAll {E : Type} (tok : TokenizerE E) (ts : List String)
    (p : String) : Event.openFile p ∉ (processAll tok ts).2 := fun hmem => by
  rcases processAll_events tok ts _ hmem with ⟨t, b1, b2, h⟩ | ⟨ids, h⟩ <;> simp at h

/-- The loop trace contains no file-write event. -/
theorem writeFile_not_mem_processAll {E : Type} (tok : TokenizerE E) (ts : List String)
    (p c : String) : Event.writeFile p c ∉ (processAll tok ts).2 := fun hmem => by
  rcases processAll_events tok ts _ hmem with ⟨t, b1, b2, h⟩ | ⟨ids, h⟩ <;> simp at h

/-- C7: failures propagate uncaught — if loading the tokenizer fails the run
aborts with that error, if the destination cannot be opened (directory
missing) the run aborts with that error, and there is no retry: every run's
trace contains the load attempt exactly once. -/
theorem failures_abort_run :
    (∀ (E : Type) (env : EnvE E) (e : E),
        env.from_pretrained model_id = .error e → (runE env).1 = .error e) ∧
      (∀ (E : Type) (env : EnvE E) (tok : TokenizerE E) (rs : List GoldenRecord) (e : E),
        env.from_pretrained model_id = .ok tok →
        (processAll tok test_cases).1 = .ok rs →
        env.openFile out_path = .error e → (runE env).1 = .error e) ∧
      ∀ (E : Type) (env : EnvE E),
        (runE env).2.count (Event.loadTok model_id) = 1 := by
  refine ⟨fun E env e h => by simp [runE, h], ?_, ?_⟩
  · intro E env tok rs e h1 h2 h3
    simp [runE, h1, h2, h3]
  · intro E env
    rcases hload : env.from_pretrained model_id with e | tok
    · simp [runE, hload]
    · rcases hp : (processAll tok test_cases).1 with e | rs
      · simp only [runE, hload, hp]
        simp [List.count_cons_self, List.count_eq_zero.mpr (load_not_mem_processAll tok _)]
      · rcases hopen : env.openFile out_path with e | u <;>
        · simp only [runE, hload, hp, hopen]
          simp [List.count_cons, List.count_append,
            List.count_eq_zero.mpr (load_not_mem_processAll tok _)]

/-- C10: file effects are gated on the tokenizer phase — if loading fails,
or any input's encode call raises, the run performs no file-open and no
file-write; and whenever a file-open occurs, the tokenizer had loaded, the
whole loop had completed, and every input's encode call precedes the open in
the trace. -/
theorem file_write_gated_on_tokenizer :
    (∀ (E : Type) (env : EnvE E) (e : E),
        env.from_pretrained model_id = .error e →
        ∀ p, Event.openFile p ∉ (runE env).2 ∧
          ∀ c, Event.writeFile p c ∉ (runE env).2) ∧
      (∀ (E : Type) (env : EnvE E) (tok : TokenizerE E) (t : String) (e : E),
        env.from_pretrained model_id = .ok tok →
        t ∈ test_cases →
        tok.encode t true false = .error e →
        ∀ p, Event.openFile p ∉ (runE env).2 ∧
          ∀ c, Event.writeFile p c ∉ (runE env).2) ∧
      ∀ (E : Type) (env : EnvE E) (p : String),
        Event.openFile p ∈ (runE env).2 →
        ∃ (tok : TokenizerE E) (rs : List GoldenRecord),
          env.from_pretrained model_id = .ok tok ∧
            (processAll tok test_cases).1 = .ok rs ∧
            ∃ pre post,
              (runE env).2 = pre ++ Event.openFile p :: post ∧
                ∀ t ∈ test_cases, Event.encodeCall t true false ∈ pre := by
  refine ⟨?_, ?_, ?_⟩
  · intro E env e h p
    exact ⟨by simp [runE, h], fun c => by simp [runE, h]⟩
  · intro E env tok t e h1 ht he p
    rcases hp : (processAll tok test_cases).1 with e' | rs
    · constructor
      · intro hmem
        simp only [runE, h1, hp] at hmem
        rcases List.mem_cons.mp hmem with h | h
        · simp at h
        · exact openFile_not_mem_processAll tok test_cases p h
      · intro c hmem
        simp only [runE, h1, hp] at hmem
        rcases List.mem_cons.mp hmem with h | h
        · simp at h
        · exact writeFile_not_mem_processAll tok test_cases p c h
    · obtain ⟨enc, hok⟩ := processAll_ok_encode tok test_cases rs hp t ht
      rw [he] at hok
      exact absurd hok (by simp)
  · intro E env p hmem
    rcases hload : env.from_pretrained model_id with e | tok
    · simp [runE, hload] at hmem
    · rcases hp : (processAll tok test_cases).1 with e | rs
      · simp only [runE, hload, hp] at hmem
        rcases List.mem_cons.mp hmem with h | h
        · simp at h
        · exact absurd h (openFile_not_mem_processAll tok test_cases p)
      · have hpre : ∀ t ∈ test_cases,
            Event.encodeCall t true false ∈
              Event.loadTok model_id :: (processAll tok test_cases).2 :=
          fun t ht =>
            List.mem_cons_of_mem _ (processAll_ok_encode_mem tok test_cases rs hp t ht)
        have hpeq : p = out_path := by
          rcases hopen : env.openFile out_path with e | u <;>
          · simp only [runE, hload, hp, hopen] at hmem
            rcases List.mem_cons.mp hmem with h | h
            · simp at h
            · rcases List.mem_append.mp h with h | h
              · exact absurd h (openFile_not_mem_processAll tok test_cases p)
              · simp only [List.mem_cons, List.mem_singleton, List.not_mem_nil,
                  or_false] at h
                simp_all
        subst hpeq
        refine ⟨tok, rs, rfl, hp, ?_⟩
        rcases hopen : env.openFile out_path with e | u
        · refine ⟨Event.loadTok model_id :: (processAll tok test_cases).2, [], ?_, hpre⟩
          simp [runE, hload, hp, hopen]
        · refine ⟨Event.loadTok model_id :: (processAll tok test_cases).2,
            [Event.writeFile out_path
                (json_dump (.jarr (rs.map recordJson)) 2),
              Event.printLine ("Generated " ++ toString rs.length ++ " test cases")],
            ?_, hpre⟩
          simp [runE, hload, hp, hopen]

/-- Environment in which loading the pretrained tokenizer fails. -/
def envLoadFail : EnvE Unit where
  from_pretrained _ := .error ()
  openFile _ := .ok ()

/-- A tokenizer whose every call raises. -/
def failTokE : TokenizerE Unit where
  encode _ _ _ := .error ()
  convert_ids_to_tokens _ := .error ()

/-- Environment in which the tokenizer loads but every encode call raises. -/
def envEncodeFail : EnvE Unit where
  from_pretrained _ := .ok failTokE
  openFile _ := .ok ()

/-- Environment in which only opening the destination file fails. -/
def envOpenFail : EnvE Unit where
  from_pretrained _ := .ok demoTokE
  openFile _ := .error ()

/-- Witness for C7: a failing load and a failing open each abort the run
with that error. -/
theorem failures_abort_run_witness :
    (runE envLoadFail).1 = .error () ∧ (runE envOpenFail).1 = .error () :=
  ⟨failures_abort_run.1 Unit envLoadFail () rfl,
    failures_abort_run.2.1 Unit envOpenFail demoTokE (results demoTok) () rfl rfl rfl⟩

/-- Witness for C10: under a failing load and under a failing encode, the
run's trace contains no file-open event. -/
theorem file_write_gated_witness :
    Event.openFile out_path ∉ (runE envLoadFail).2 ∧
      Event.openFile out_path ∉ (runE envEncodeFail).2 :=
  ⟨(file_write_gated_on_tokenizer.1 Unit envLoadFail () rfl out_path).1,
    (file_write_gated_on_tokenizer.2.1 Unit envEncodeFail failTokE "Hello" () rfl
        (by simp [test_cases]) rfl out_path).1⟩

end GoldenGen
